import Mathlib

/-!
Verification of the lumber-yard point-of-sale backend (Express + SQLite).

The development shallowly embeds the database state and the five operations
that mutate inventory or sales:

* `createSaleF`        — POST /sales            (src/unnamed/part_001, lines 408-572)
* `updateSaleStatus`   — PUT /sales/:id/status  (src/unnamed/part_001, lines 575-683)
* `addStock`           — POST /inventory/product/:id/add    (src/server/routes/inventory.js, 214-274)
* `removeStock`        — POST /inventory/product/:id/remove (src/server/routes/inventory.js, 277-350)
* `updateInventoryPut` — PUT /inventory/product/:id         (src/server/routes/inventory.js, 115-211)

Rows are records over ℚ (SQLite DECIMAL columns, JS numbers); tables are lists
in insertion order; `db.get` is `List.find?` (first matching row) and SQL
`UPDATE ... WHERE` is a `List.map` over all matching rows.  Transactions are
modelled by returning the pre-transaction state on every ROLLBACK branch.
`createSaleF` additionally takes a fault parameter naming the one database
primitive (if any) whose callback receives an error, so that the code's error
branches — including the movement-insert branch that deliberately does not
roll back — are part of the model.
-/

namespace LumberPOS

/-- Row of the `products` table (schema: src/unnamed/part_002, lines 42-57).
Columns never read by the modelled operations (description, category_id, unit,
cost, barcode, image_url, dimensions, timestamps) are omitted. -/
structure ProductRow where
  id : Nat
  name : String
  price : ℚ
  active : Bool
deriving DecidableEq

/-- Row of the `inventory` table (schema: src/unnamed/part_002, lines 60-69).
`max_stock` and `location` are nullable columns; `updated_at` is omitted. -/
structure InventoryRow where
  product_id : Nat
  quantity : ℚ
  min_stock : ℚ
  max_stock : Option ℚ
  location : Option String
deriving DecidableEq

/-- Row of the `sales` table (schema: src/unnamed/part_002, lines 89-102).
`sale_date` is omitted. -/
structure SaleRow where
  id : Nat
  customer_id : Option Nat
  user_id : Nat
  total_amount : ℚ
  discount : ℚ
  tax : ℚ
  payment_method : String
  status : String
  notes : Option String
deriving DecidableEq

/-- Row of the `sale_items` table (schema: src/unnamed/part_002, lines 105-114). -/
structure SaleItemRow where
  sale_id : Nat
  product_id : Nat
  quantity : ℚ
  unit_price : ℚ
  total_price : ℚ
deriving DecidableEq

/-- Row of the `inventory_movements` table (schema: src/unnamed/part_002,
lines 117-129); `created_at` is omitted. -/
structure MovementRow where
  product_id : Nat
  movement_type : String
  quantity : ℚ
  reason : String
  user_id : Option Nat
  reference_id : Option Nat
  reference_type : Option String
deriving DecidableEq

/-- The database.  `nextSaleId` models the AUTOINCREMENT id the next
`INSERT INTO sales` receives (`this.lastID` in the handlers). -/
structure DBState where
  products : List ProductRow
  inventory : List InventoryRow
  sales : List SaleRow
  sale_items : List SaleItemRow
  movements : List MovementRow
  nextSaleId : Nat
deriving DecidableEq

/-- One entry of the `items` array of a POST /sales body. -/
structure SaleItemReq where
  product_id : Nat
  quantity : ℚ
deriving DecidableEq

/-- POST /sales request body (part_001 line 419; `discount = 0`, `tax = 0`
defaults are resolved by the caller of the model). -/
structure SaleReq where
  customer_id : Option Nat
  items : List SaleItemReq
  discount : ℚ
  tax : ℚ
  payment_method : String
  notes : Option String
deriving DecidableEq

/-- The product lookup of the sale handler (part_001 lines 435-440):
`SELECT ... FROM products p ... WHERE p.id = ? AND p.active = 1`. -/
def findActiveProduct (s : DBState) (pid : Nat) : Option ProductRow :=
  s.products.find? (fun p => p.id == pid && p.active)

/-- The `i.quantity as stock_quantity` column produced by the
`LEFT JOIN inventory` (part_001 lines 436-438): `none` when the product has
no inventory row (SQL NULL). -/
def stockOf (s : DBState) (pid : Nat) : Option ℚ :=
  (s.inventory.find? (fun i => i.product_id == pid)).map (·.quantity)

/-- The JavaScript comparison `product.stock_quantity < item.quantity`
(part_001 line 454): when `stock_quantity` is `null`, JS coerces it to 0. -/
def jsLt (a : Option ℚ) (b : ℚ) : Bool :=
  match a with
  | none => decide (0 < b)
  | some x => decide (x < b)

/-- Validation failures of the sale-creation item loop (part_001 lines
442-459); `dbError` is the `db.get` error branch (line 443). -/
inductive SaleErr
  | dbError
  | productNotFound (product_id : Nat)
  | insufficientStock (name : String) (available : Option ℚ)
deriving DecidableEq

/-- HTTP outcome of POST /sales. `invalidRequest` is the express-validator
400 (part_001 lines 409-417), `badRequest` the handler's own 400s,
`serverError` a 500, `created` the 201 body (lines 550-557). -/
inductive SaleResponse
  | invalidRequest
  | badRequest (e : SaleErr)
  | serverError (msg : String)
  | created (sale_id : Nat) (total_amount : ℚ) (items_count : Nat)
deriving DecidableEq

/-- Whether the response reports success (HTTP 201). -/
def SaleResponse.isSuccess : SaleResponse → Bool
  | .created _ _ _ => true
  | _ => false

/-- Which database primitive of the POST /sales handler (if any) fails.
Indices count the per-item primitives in request order. -/
inductive SaleFault
  | noFault
  | validateQuery (i : Nat)
  | insertSale
  | insertItem (i : Nat)
  | updateInventory (i : Nat)
  | insertMovement (i : Nat)
  | commitFail
deriving DecidableEq

/-- `f` is a failure of the movement-log insert. -/
def SaleFault.isMovement : SaleFault → Prop
  | .insertMovement _ => True
  | _ => False

instance : DecidablePred SaleFault.isMovement := by
  intro f
  cases f <;> simp [SaleFault.isMovement] <;> infer_instance

/-- The express-validator chain of POST /sales (part_001 lines 409-412):
at least one item, integer product ids ≥ 1, quantities ≥ 0.001, a known
payment method. -/
def saleValidatorOk (r : SaleReq) : Bool :=
  !r.items.isEmpty &&
  r.items.all (fun it => decide (1 ≤ it.product_id) && decide ((1 : ℚ)/1000 ≤ it.quantity)) &&
  (r.payment_method == "dinheiro" || r.payment_method == "cartao_debito" ||
   r.payment_method == "cartao_credito" || r.payment_method == "pix" ||
   r.payment_method == "boleto")

/-- An entry of the handler's `saleItems` array (part_001 lines 464-469):
the price snapshot taken during validation. -/
structure SaleItemP where
  product_id : Nat
  quantity : ℚ
  unit_price : ℚ
  total_price : ℚ
deriving DecidableEq

/-- The validation loop of POST /sales (part_001 lines 434-478): for each
requested line look up the active product joined with its stock, reject when
absent (400, line 450) or when `stock_quantity < quantity` (400, lines
454-458), otherwise snapshot the price (`unit_price := p.price`,
`total_price := quantity * p.price`).  The first failing line determines the
response; `i` is the index of the current line. -/
def validateItemsF (fault : SaleFault) (s : DBState) :
    List SaleItemReq → Nat → Except SaleErr (List SaleItemP)
  | [], _ => .ok []
  | it :: rest, i =>
    if fault == .validateQuery i then .error .dbError
    else
      match findActiveProduct s it.product_id with
      | none => .error (.productNotFound it.product_id)
      | some p =>
        if jsLt (stockOf s it.product_id) it.quantity then
          .error (.insufficientStock p.name (stockOf s it.product_id))
        else
          match validateItemsF fault s rest (i+1) with
          | .error e => .error e
          | .ok l => .ok ({ product_id := it.product_id, quantity := it.quantity,
                            unit_price := p.price,
                            total_price := it.quantity * p.price } :: l)

/-- `UPDATE inventory SET quantity = quantity - ? WHERE product_id = ?`
(part_001 lines 514-518; inventory.js lines 312-316). -/
def decInv (inv : List InventoryRow) (pid : Nat) (q : ℚ) : List InventoryRow :=
  inv.map (fun r => if r.product_id == pid then { r with quantity := r.quantity - q } else r)

/-- `UPDATE inventory SET quantity = quantity + ? WHERE product_id = ?`
(part_001 lines 616-620; inventory.js lines 232-236). -/
def incInv (inv : List InventoryRow) (pid : Nat) (q : ℚ) : List InventoryRow :=
  inv.map (fun r => if r.product_id == pid then { r with quantity := r.quantity + q } else r)

/-- The 'saida' movement inserted per sold line (part_001 lines 528-531). -/
def saleOutMove (uid saleId : Nat) (p : SaleItemP) : MovementRow :=
  { product_id := p.product_id, movement_type := "saida", quantity := p.quantity,
    reason := "Venda", user_id := some uid, reference_id := some saleId,
    reference_type := some "sale" }

/-- The 'entrada' movement inserted per restored line on cancellation
(part_001 lines 630-633). -/
def cancelInMove (uid saleId : Nat) (it : SaleItemRow) : MovementRow :=
  { product_id := it.product_id, movement_type := "entrada", quantity := it.quantity,
    reason := "Cancelamento de venda", user_id := some uid, reference_id := some saleId,
    reference_type := some "sale_cancellation" }

/-- The `sale_items` row inserted for a processed line (part_001 lines
501-506). -/
def mkItemRow (saleId : Nat) (p : SaleItemP) : SaleItemRow :=
  { sale_id := saleId, product_id := p.product_id, quantity := p.quantity,
    unit_price := p.unit_price, total_price := p.total_price }

/-- `totalAmount` accumulated by the validation loop (part_001 lines
461-462): the running sum of the `itemTotal`s. -/
def sumTotals (l : List SaleItemP) : ℚ := (l.map (·.total_price)).sum

/-- The `sales` row inserted by `createSale` (part_001 lines 483-488).  The
INSERT omits the `status` column, so the schema default `'concluida'`
(part_002 line 97) applies. -/
def newSaleRow (s : DBState) (uid : Nat) (r : SaleReq) (finalTotal : ℚ) : SaleRow :=
  { id := s.nextSaleId, customer_id := r.customer_id, user_id := uid,
    total_amount := finalTotal, discount := r.discount, tax := r.tax,
    payment_method := r.payment_method, status := "concluida", notes := r.notes }

/-- The per-item write loop of `createSale` (part_001 lines 497-563): insert
the `sale_items` row, decrement inventory, insert the 'saida' movement.  An
`insertItem` or `updateInventory` fault takes the corresponding ROLLBACK
branch (lines 507-511, 521-525); an `insertMovement` fault is only logged —
the code comments "Don't rollback for movement errors, just log" (lines
534-537) — so the loop continues without the movement row. -/
def writeItemsF (fault : SaleFault) (uid saleId : Nat) :
    List SaleItemP → Nat → DBState → Except String DBState
  | [], _, st => .ok st
  | p :: rest, i, st =>
    if fault == .insertItem i then .error "Erro ao inserir item da venda"
    else
      let st1 := { st with sale_items := st.sale_items ++ [mkItemRow saleId p] }
      if fault == .updateInventory i then .error "Erro ao atualizar estoque"
      else
        let st2 := { st1 with inventory := decInv st1.inventory p.product_id p.quantity }
        let st3 := if fault == .insertMovement i then st2
          else { st2 with movements := st2.movements ++ [saleOutMove uid saleId p] }
        writeItemsF fault uid saleId rest (i+1) st3

/-- Maps a validation failure to the handler's HTTP response (part_001 lines
443-458). -/
def errToResponse : SaleErr → SaleResponse
  | .dbError => .serverError "Erro ao validar produto"
  | e => .badRequest e

/-- The POST /sales handler (part_001 lines 408-572) under fault `fault`.
Every ROLLBACK branch returns the pre-transaction state; on the fault-free
path the sale header, one `sale_items` row per line, the inventory
decrements and one 'saida' movement per line are all persisted and the 201
body `{sale_id, total_amount, items_count}` is returned. -/
def createSaleF (fault : SaleFault) (s : DBState) (uid : Nat) (r : SaleReq) :
    SaleResponse × DBState :=
  if !saleValidatorOk r then (.invalidRequest, s)
  else
    match validateItemsF fault s r.items 0 with
    | .error e => (errToResponse e, s)
    | .ok pItems =>
      let finalTotal := sumTotals pItems - r.discount + r.tax
      if fault == .insertSale then (.serverError "Erro ao criar venda", s)
      else
        let saleId := s.nextSaleId
        let s1 := { s with sales := s.sales ++ [newSaleRow s uid r finalTotal],
                           nextSaleId := saleId + 1 }
        match writeItemsF fault uid saleId pItems 0 s1 with
        | .error m => (.serverError m, s)
        | .ok s2 =>
          if fault == .commitFail then (.serverError "Erro ao confirmar venda", s)
          else (.created saleId finalTotal pItems.length, s2)

/-- The fault-free POST /sales handler. -/
def createSale (s : DBState) (uid : Nat) (r : SaleReq) : SaleResponse × DBState :=
  createSaleF .noFault s uid r

/-- HTTP outcome of PUT /sales/:id/status.  `hang` models the
completed→cancelled branch on a sale without line items: the `forEach`
callback that would compare `updatedItems === items.length` never runs, so
neither a response nor a COMMIT is ever issued (part_001 lines 612-649). -/
inductive StatusResponse
  | invalidRequest
  | okMsg
  | notFoundSale
  | hang
deriving DecidableEq

/-- The status body validator (part_001 line 576). -/
def validStatus (st : String) : Bool :=
  st == "pendente" || st == "concluida" || st == "cancelada"

/-- `UPDATE sales SET status = ? WHERE id = ?` (part_001 lines 653, 673). -/
def setSaleStatus (sales : List SaleRow) (saleId : Nat) (st : String) : List SaleRow :=
  sales.map (fun sa => if sa.id == saleId then { sa with status := st } else sa)

/-- One iteration of the cancellation restore loop (part_001 lines 614-648):
`quantity = quantity + ?` for the line's product, then the compensating
'entrada' movement. -/
def restoreOne (uid saleId : Nat) (st : DBState) (it : SaleItemRow) : DBState :=
  { st with inventory := incInv st.inventory it.product_id it.quantity,
            movements := st.movements ++ [cancelInMove uid saleId it] }

/-- The PUT /sales/:id/status handler (part_001 lines 575-683).  When the
sale's current status is 'concluida' and the target is 'cancelada', every
line item's quantity is restored and a compensating movement logged before
the status flips (lines 600-670); every other combination is the plain
`UPDATE sales SET status` of lines 671-681. -/
def updateSaleStatus (s : DBState) (uid saleId : Nat) (newStatus : String) :
    StatusResponse × DBState :=
  if !validStatus newStatus then (.invalidRequest, s)
  else
    match s.sales.find? (fun sa => sa.id == saleId) with
    | none => (.notFoundSale, s)
    | some sale =>
      if sale.status == "concluida" && newStatus == "cancelada" then
        let items := s.sale_items.filter (fun si => si.sale_id == saleId)
        if items.isEmpty then (.hang, s)
        else
          let s1 := items.foldl (restoreOne uid saleId) s
          (.okMsg, { s1 with sales := setSaleStatus s1.sales saleId newStatus })
      else
        (.okMsg, { s with sales := setSaleStatus s.sales saleId newStatus })

/-- HTTP outcome of the manual add/remove adjustment routes. -/
inductive AdjResponse
  | invalidRequest
  | okMsg
  | notFoundInv
  | insufficient (available : ℚ)
deriving DecidableEq

/-- The movement row of a manual adjustment (inventory.js lines 251-254,
326-329): no `reference_id`, `reference_type` 'adjustment'. -/
def adjMove (pid : Nat) (mtype : String) (q : ℚ) (reason : String) (uid : Nat) : MovementRow :=
  { product_id := pid, movement_type := mtype, quantity := q, reason := reason,
    user_id := some uid, reference_id := none, reference_type := some "adjustment" }

/-- The add/remove body validator (inventory.js lines 215-216, 278-279):
quantity ≥ 0.001 and a non-empty reason. -/
def adjValidatorOk (q : ℚ) (reason : String) : Bool :=
  decide ((1 : ℚ)/1000 ≤ q) && !(reason == "")

/-- POST /inventory/product/:id/add (inventory.js lines 214-274): increment
the product's inventory row and log an 'entrada' movement; 404 when
`this.changes === 0`, i.e. no inventory row carries the product id. -/
def addStock (s : DBState) (uid pid : Nat) (q : ℚ) (reason : String) :
    AdjResponse × DBState :=
  if !adjValidatorOk q reason then (.invalidRequest, s)
  else if s.inventory.any (fun i => i.product_id == pid) then
    (.okMsg, { s with inventory := incInv s.inventory pid q,
                      movements := s.movements ++ [adjMove pid "entrada" q reason uid] })
  else (.notFoundInv, s)

/-- POST /inventory/product/:id/remove (inventory.js lines 277-350): read
the current quantity (lines 292-300), reject with the available quantity
when `inventory.quantity < quantity` (lines 302-306), otherwise decrement
and log a 'saida' movement inside one transaction (lines 308-349). -/
def removeStock (s : DBState) (uid pid : Nat) (q : ℚ) (reason : String) :
    AdjResponse × DBState :=
  if !adjValidatorOk q reason then (.invalidRequest, s)
  else
    match s.inventory.find? (fun i => i.product_id == pid) with
    | none => (.notFoundInv, s)
    | some inv =>
      if inv.quantity < q then (.insufficient inv.quantity, s)
      else
        (.okMsg, { s with inventory := decInv s.inventory pid q,
                          movements := s.movements ++ [adjMove pid "saida" q reason uid] })

/-- PUT /inventory/product/:id request body (inventory.js line 126); absent
fields are `none`. -/
structure InvPutReq where
  quantity : Option ℚ
  min_stock : Option ℚ
  max_stock : Option ℚ
  location : Option String
deriving DecidableEq

/-- HTTP outcome of PUT /inventory/product/:id. -/
inductive PutResponse
  | invalidRequest
  | notFoundProduct
  | createdMsg
  | okMsg
deriving DecidableEq

/-- The PUT validator (inventory.js lines 115-118): each provided numeric
field must be ≥ 0. -/
def invPutValidatorOk (r : InvPutReq) : Bool :=
  (match r.quantity with | none => true | some q => decide (0 ≤ q)) &&
  (match r.min_stock with | none => true | some q => decide (0 ≤ q)) &&
  (match r.max_stock with | none => true | some q => decide (0 ≤ q))

/-- JavaScript `x || d` on an optional number: `undefined` and the falsy
value 0 both yield the default. -/
def jsOrQ (a : Option ℚ) (d : ℚ) : ℚ :=
  match a with
  | none => d
  | some x => if x == 0 then d else x

/-- The PUT /inventory/product/:id handler (inventory.js lines 115-211).
When no inventory row exists, a row is inserted with JS `||` defaults
(lines 148-168) and no movement is logged; otherwise every field given in
the body replaces the stored one (`!== undefined` checks, lines 177-180)
and a quantity change additionally logs an 'Ajuste manual' movement of the
absolute difference (lines 189-204). -/
def updateInventoryPut (s : DBState) (uid pid : Nat) (r : InvPutReq) :
    PutResponse × DBState :=
  if !invPutValidatorOk r then (.invalidRequest, s)
  else if (s.products.find? (fun p => p.id == pid && p.active)).isNone then
    (.notFoundProduct, s)
  else
    match s.inventory.find? (fun i => i.product_id == pid) with
    | none =>
      (.createdMsg, { s with inventory := s.inventory ++
        [{ product_id := pid, quantity := jsOrQ r.quantity 0,
           min_stock := jsOrQ r.min_stock 0,
           max_stock := match r.max_stock with
             | none => none
             | some x => if x == 0 then none else some x,
           location := some (match r.location with
             | none => "Estoque Principal"
             | some l => if l == "" then "Estoque Principal" else l) }] })
    | some cur =>
      let newQ := r.quantity.getD cur.quantity
      let newMin := r.min_stock.getD cur.min_stock
      let newMax := match r.max_stock with
        | none => cur.max_stock
        | some x => some x
      let newLoc := match r.location with
        | none => cur.location
        | some l => some l
      let inv2 := s.inventory.map (fun row => if row.product_id == pid then
          { row with quantity := newQ, min_stock := newMin,
                     max_stock := newMax, location := newLoc } else row)
      let movs := match r.quantity with
        | none => s.movements
        | some q =>
          if q == cur.quantity then s.movements
          else s.movements ++
            [{ product_id := pid,
               movement_type := if cur.quantity < q then "entrada" else "saida",
               quantity := |q - cur.quantity|, reason := "Ajuste manual",
               user_id := some uid, reference_id := none,
               reference_type := some "adjustment" }]
      (.okMsg, { s with inventory := inv2, movements := movs })

/-- One inventory-mutating request, for stating the global quantity
invariant. -/
inductive Op
  | sale (uid : Nat) (r : SaleReq)
  | status (uid saleId : Nat) (st : String)
  | add (uid pid : Nat) (q : ℚ) (reason : String)
  | remove (uid pid : Nat) (q : ℚ) (reason : String)
  | put (uid pid : Nat) (r : InvPutReq)
deriving DecidableEq

/-- The state reached after serving one request. -/
def applyOp (s : DBState) : Op → DBState
  | .sale uid r => (createSale s uid r).2
  | .status uid saleId st => (updateSaleStatus s uid saleId st).2
  | .add uid pid q reason => (addStock s uid pid q reason).2
  | .remove uid pid q reason => (removeStock s uid pid q reason).2
  | .put uid pid r => (updateInventoryPut s uid pid r).2

/-- Well-formedness of a database state: all inventory quantities and all
sale-item quantities are non-negative, and — per the 1:1 product/inventory
data model — at most one inventory row per product. -/
def InvOK (s : DBState) : Prop :=
  (∀ row ∈ s.inventory, 0 ≤ row.quantity) ∧
  (∀ si ∈ s.sale_items, 0 ≤ si.quantity) ∧
  (s.inventory.map (·.product_id)).Nodup

instance (s : DBState) : Decidable (InvOK s) := by
  unfold InvOK
  infer_instance

/-- A sale request references each product at most once; trivial for the
other operations. -/
def saleDistinct : Op → Prop
  | .sale _ r => (r.items.map (·.product_id)).Nodup
  | _ => True

instance (op : Op) : Decidable (saleDistinct op) := by
  cases op <;> simp [saleDistinct] <;> infer_instance

/-- The aggregate effect on `inventory` of the write loop of `createSale`:
left fold of the per-line decrements, in request order. -/
def decFold (inv : List InventoryRow) (l : List SaleItemP) : List InventoryRow :=
  l.foldl (fun acc p => decInv acc p.product_id p.quantity) inv

/-- The aggregate effect on `inventory` of the cancellation restore loop:
left fold of the per-line increments, in `sale_items` order. -/
def incFoldI (inv : List InventoryRow) (rows : List SaleItemRow) : List InventoryRow :=
  rows.foldl (fun acc it => incInv acc it.product_id it.quantity) inv

/-- Total quantity the sale's write loop subtracts from product `pid`. -/
def qtyOut (l : List SaleItemP) (pid : Nat) : ℚ :=
  ((l.filter (fun p => p.product_id == pid)).map (·.quantity)).sum

/-- Total quantity the restore loop adds to product `pid`. -/
def qtyInRows (rows : List SaleItemRow) (pid : Nat) : ℚ :=
  ((rows.filter (fun it => it.product_id == pid)).map (·.quantity)).sum

/-- A request line the validation loop rejects: the product is missing or
inactive, or the availability check `stock_quantity < quantity` fires
(part_001 lines 448-459). -/
def badLine (s : DBState) (it : SaleItemReq) : Prop :=
  findActiveProduct s it.product_id = none ∨
  jsLt (stockOf s it.product_id) it.quantity = true

instance (s : DBState) (it : SaleItemReq) : Decidable (badLine s it) := by
  unfold badLine
  infer_instance

/-- The rejection payload identifies line `it`: a missing product is named
by its id (part_001 line 450), an insufficiency by the product's name and
the joined `stock_quantity` (part_001 lines 456-458). -/
def errNames (s : DBState) (e : SaleErr) (it : SaleItemReq) : Prop :=
  (findActiveProduct s it.product_id = none ∧ e = .productNotFound it.product_id) ∨
  (∃ p, findActiveProduct s it.product_id = some p ∧
        e = .insufficientStock p.name (stockOf s it.product_id))

/-- Example store: one active product, price 10, 100 units in stock. -/
def exS : DBState :=
  { products := [{ id := 1, name := "Tabua de Pinus", price := 10, active := true }],
    inventory := [{ product_id := 1, quantity := 100, min_stock := 0,
                    max_stock := none, location := none }],
    sales := [], sale_items := [], movements := [], nextSaleId := 1 }

/-- Example request: 30 units of product 1, cash, no discount or tax. -/
def exR : SaleReq :=
  { customer_id := none, items := [{ product_id := 1, quantity := 30 }],
    discount := 0, tax := 0, payment_method := "dinheiro", notes := none }

/-- Store with a single unit of stock, for the duplicate-line overdraw. -/
def exS8 : DBState :=
  { products := [{ id := 1, name := "Tabua de Pinus", price := 10, active := true }],
    inventory := [{ product_id := 1, quantity := 1, min_stock := 0,
                    max_stock := none, location := none }],
    sales := [], sale_items := [], movements := [], nextSaleId := 1 }

/-- Request naming the same product on two lines, one unit each. -/
def exR8 : SaleReq :=
  { customer_id := none,
    items := [{ product_id := 1, quantity := 1 }, { product_id := 1, quantity := 1 }],
    discount := 0, tax := 0, payment_method := "dinheiro", notes := none }

/-- Store holding one already-cancelled sale of product 1 (one line, 5
units) and the matching inventory row. -/
def exS5 : DBState :=
  { products := [{ id := 1, name := "Tabua de Pinus", price := 10, active := true }],
    inventory := [{ product_id := 1, quantity := 100, min_stock := 0,
                    max_stock := none, location := none }],
    sales := [{ id := 1, customer_id := none, user_id := 1, total_amount := 50,
                discount := 0, tax := 0, payment_method := "dinheiro",
                status := "cancelada", notes := none }],
    sale_items := [{ sale_id := 1, product_id := 1, quantity := 5,
                     unit_price := 10, total_price := 50 }],
    movements := [], nextSaleId := 2 }

/-- Store holding one pending sale, for the plain status-update branch. -/
def exS6 : DBState :=
  { products := [{ id := 1, name := "Tabua de Pinus", price := 10, active := true }],
    inventory := [{ product_id := 1, quantity := 100, min_stock := 0,
                    max_stock := none, location := none }],
    sales := [{ id := 1, customer_id := none, user_id := 1, total_amount := 50,
                discount := 0, tax := 0, payment_method := "dinheiro",
                status := "pendente", notes := none }],
    sale_items := [{ sale_id := 1, product_id := 1, quantity := 5,
                     unit_price := 10, total_price := 50 }],
    movements := [], nextSaleId := 2 }

/-- Store with an active product that has no inventory row. -/
def exS10 : DBState :=
  { products := [{ id := 1, name := "Tabua de Pinus", price := 10, active := true }],
    inventory := [], sales := [], sale_items := [], movements := [], nextSaleId := 1 }

/-- Request asking for more units than the 100 in stock. -/
def exR3 : SaleReq :=
  { customer_id := none, items := [{ product_id := 1, quantity := 200 }],
    discount := 0, tax := 0, payment_method := "dinheiro", notes := none }

/-- Eta for inventory rows, so that a no-op field update simplifies away. -/
@[simp] theorem invRow_mk_eta (r : InventoryRow) :
    InventoryRow.mk r.product_id r.quantity r.min_stock r.max_stock r.location = r := rfl

/-- Eta for database states. -/
@[simp] theorem dbState_mk_eta (s : DBState) :
    DBState.mk s.products s.inventory s.sales s.sale_items s.movements s.nextSaleId = s := rfl

/-- Two maps agree when the functions agree on the list's members. -/
theorem map_ext_mem {α β : Type} (f g : α → β) :
    ∀ (l : List α), (∀ a ∈ l, f a = g a) → l.map f = l.map g := by
  intro l
  induction l with
  | nil => intro _; rfl
  | cons a t ih =>
    intro h
    simp only [List.map_cons, h a (by simp)]
    rw [ih (fun x hx => h x (by simp [hx]))]

/-- `find?` skips a prefix none of whose members satisfy the predicate. -/
theorem find?_append_of_none {α : Type} (p : α → Bool) :
    ∀ (l1 l2 : List α), (∀ a ∈ l1, p a = false) →
      (l1 ++ l2).find? p = l2.find? p := by
  intro l1 l2 h
  induction l1 with
  | nil => rfl
  | cons a t ih =>
    simp only [List.cons_append, List.find?_cons, h a (by simp)]
    exact ih (fun x hx => h x (by simp [hx]))

/-- `filter` drops a prefix none of whose members satisfy the predicate. -/
theorem filter_append_of_none {α : Type} (p : α → Bool) :
    ∀ (l1 l2 : List α), (∀ a ∈ l1, p a = false) →
      (l1 ++ l2).filter p = l2.filter p := by
  intro l1 l2 h
  induction l1 with
  | nil => rfl
  | cons a t ih =>
    simp only [List.cons_append, List.filter_cons, h a (by simp)]
    simp only [Bool.false_eq_true, if_false]
    exact ih (fun x hx => h x (by simp [hx]))

/-- When the keys of a list are distinct, `find?` by the key of a member
returns exactly that member. -/
theorem find?_key_unique {α : Type} (key : α → Nat) :
    ∀ (l : List α), (l.map key).Nodup →
      ∀ x ∈ l, l.find? (fun a => key a == key x) = some x := by
  intro l
  induction l with
  | nil => intro _ x hx; cases hx
  | cons a t ih =>
    intro hnd x hx
    simp only [List.map_cons, List.nodup_cons] at hnd
    rcases List.mem_cons.mp hx with rfl | hxt
    · simp [List.find?_cons]
    · have hne : key a ≠ key x := by
        intro hkey
        exact hnd.1 (hkey ▸ List.mem_map_of_mem key hxt)
      rw [List.find?_cons_of_neg _ (by simp [hne])]
      exact ih hnd.2 x hxt

/-- When the keys of a list are distinct, `filter` by the key of a member
returns exactly that member. -/
theorem filter_key_unique {α : Type} (key : α → Nat) :
    ∀ (l : List α), (l.map key).Nodup →
      ∀ x ∈ l, l.filter (fun a => key a == key x) = [x] := by
  intro l
  induction l with
  | nil => intro _ x hx; cases hx
  | cons a t ih =>
    intro hnd x hx
    simp only [List.map_cons, List.nodup_cons] at hnd
    rcases List.mem_cons.mp hx with rfl | hxt
    · have ht : t.filter (fun a => key a == key x) = [] := by
        rw [List.filter_eq_nil_iff]
        intro b hb hkb
        exact hnd.1 ((beq_iff_eq.mp hkb) ▸ List.mem_map_of_mem key hb)
      simp [List.filter_cons, ht]
    · have hne : key a ≠ key x := by
        intro hkey
        exact hnd.1 (hkey ▸ List.mem_map_of_mem key hxt)
      simp only [List.filter_cons, beq_iff_eq, hne, decide_eq_true_eq, if_false]
      exact ih hnd.2 x hxt

/-- Head unfolding of `qtyOut`. -/
theorem qtyOut_cons (p : SaleItemP) (l : List SaleItemP) (pid : Nat) :
    qtyOut (p :: l) pid =
      (if p.product_id == pid then p.quantity else 0) + qtyOut l pid := by
  by_cases h : p.product_id = pid <;>
    simp [qtyOut, List.filter_cons, h]

/-- Head unfolding of `qtyInRows`. -/
theorem qtyInRows_cons (it : SaleItemRow) (rows : List SaleItemRow) (pid : Nat) :
    qtyInRows (it :: rows) pid =
      (if it.product_id == pid then it.quantity else 0) + qtyInRows rows pid := by
  by_cases h : it.product_id = pid <;>
    simp [qtyInRows, List.filter_cons, h]

/-- The write loop's inventory effect, row by row: each row loses the total
quantity the sale takes of its product. -/
theorem decFold_eq_map :
    ∀ (l : List SaleItemP) (inv : List InventoryRow),
      decFold inv l =
        inv.map (fun r => { r with quantity := r.quantity - qtyOut l r.product_id }) := by
  intro l
  induction l with
  | nil =>
    intro inv
    simp [decFold, qtyOut]
  | cons p t ih =>
    intro inv
    have h1 : decFold inv (p :: t) = decFold (decInv inv p.product_id p.quantity) t := rfl
    rw [h1, ih, decInv, List.map_map]
    apply map_ext_mem
    intro r _
    simp only [Function.comp_apply, qtyOut_cons]
    by_cases h : r.product_id = p.product_id
    · simp [h, sub_sub]
    · have hne : (r.product_id == p.product_id) = false := by simp [h]
      have hne2 : (p.product_id == r.product_id) = false := by
        simp [Ne.symm h]
      simp [hne, hne2]

/-- The restore loop's inventory effect, row by row: each row gains the
total quantity the sale's line items hold of its product. -/
theorem incFoldI_eq_map :
    ∀ (rows : List SaleItemRow) (inv : List InventoryRow),
      incFoldI inv rows =
        inv.map (fun r => { r with quantity := r.quantity + qtyInRows rows r.product_id }) := by
  intro rows
  induction rows with
  | nil =>
    intro inv
    simp [incFoldI, qtyInRows]
  | cons it t ih =>
    intro inv
    have h1 : incFoldI inv (it :: t) = incFoldI (incInv inv it.product_id it.quantity) t := rfl
    rw [h1, ih, incInv, List.map_map]
    apply map_ext_mem
    intro r _
    simp only [Function.comp_apply, qtyInRows_cons]
    by_cases h : r.product_id = it.product_id
    · simp [h, add_assoc]
    · have hne : (r.product_id == it.product_id) = false := by simp [h]
      have hne2 : (it.product_id == r.product_id) = false := by
        simp [Ne.symm h]
      simp [hne, hne2]

/-- Inventory updates keep the row's product id, so the key list is stable
under the write loop. -/
theorem decFold_keys (l : List SaleItemP) (inv : List InventoryRow) :
    (decFold inv l).map (·.product_id) = inv.map (·.product_id) := by
  rw [decFold_eq_map, List.map_map]
  rfl

/-- Inventory updates keep the row's product id, so the key list is stable
under the restore loop. -/
theorem incFoldI_keys (rows : List SaleItemRow) (inv : List InventoryRow) :
    (incFoldI inv rows).map (·.product_id) = inv.map (·.product_id) := by
  rw [incFoldI_eq_map, List.map_map]
  rfl

/-- The cancellation restore loop in closed form: all the increments on the
inventory, all the compensating movements appended, nothing else touched. -/
theorem restore_foldl_spec (uid saleId : Nat) :
    ∀ (items : List SaleItemRow) (st : DBState),
      items.foldl (restoreOne uid saleId) st =
        { st with inventory := incFoldI st.inventory items,
                  movements := st.movements ++ items.map (cancelInMove uid saleId) } := by
  intro items
  induction items with
  | nil =>
    intro st
    simp [incFoldI]
  | cons it t ih =>
    intro st
    have h1 : (it :: t).foldl (restoreOne uid saleId) st =
        t.foldl (restoreOne uid saleId) (restoreOne uid saleId st it) := rfl
    rw [h1, ih]
    simp [restoreOne, incFoldI]

/-- The per-item write loop of `createSale` in closed form on the fault-free
path: the new `sale_items` rows, the inventory decrements and the 'saida'
movements, in request order. -/
theorem writeItemsF_noFault_spec (uid saleId : Nat) :
    ∀ (l : List SaleItemP) (i : Nat) (st : DBState),
      writeItemsF .noFault uid saleId l i st = .ok
        { st with sale_items := st.sale_items ++ l.map (mkItemRow saleId),
                  inventory := decFold st.inventory l,
                  movements := st.movements ++ l.map (saleOutMove uid saleId) } := by
  intro l
  induction l with
  | nil =>
    intro i st
    simp [writeItemsF, decFold]
  | cons p t ih =>
    intro i st
    rw [writeItemsF]
    simp only [show (SaleFault.noFault == SaleFault.insertItem i) = false from rfl,
      show (SaleFault.noFault == SaleFault.updateInventory i) = false from rfl,
      show (SaleFault.noFault == SaleFault.insertMovement i) = false from rfl,
      Bool.false_eq_true, if_false]
    rw [ih]
    have h2 : decFold st.inventory (p :: t) =
        decFold (decInv st.inventory p.product_id p.quantity) t := rfl
    simp [h2]

/-- What a successful validation pass guarantees: the processed list mirrors
the request lines in order, each snapshot takes the active product's current
price, each total is quantity × snapshot price, and every line passed the
availability check against the pre-sale stock. -/
theorem validate_ok_spec (s : DBState) :
    ∀ (items : List SaleItemReq) (i : Nat) (p : List SaleItemP),
      validateItemsF .noFault s items i = .ok p →
      p.map (·.product_id) = items.map (·.product_id) ∧
      p.map (·.quantity) = items.map (·.quantity) ∧
      (∀ pi ∈ p, pi.total_price = pi.quantity * pi.unit_price ∧
        (∃ prod, findActiveProduct s pi.product_id = some prod ∧
                 pi.unit_price = prod.price) ∧
        jsLt (stockOf s pi.product_id) pi.quantity = false ∧
        (∃ it ∈ items, pi.product_id = it.product_id ∧ pi.quantity = it.quantity)) := by
  intro items
  induction items with
  | nil =>
    intro i p h
    rw [validateItemsF] at h
    cases h
    simp
  | cons it rest ih =>
    intro i p h
    rw [validateItemsF] at h
    simp only [show (SaleFault.noFault == SaleFault.validateQuery i) = false from rfl,
      Bool.false_eq_true, if_false] at h
    cases hf : findActiveProduct s it.product_id with
    | none => rw [hf] at h; cases h
    | some prod =>
      rw [hf] at h
      cases hlt : jsLt (stockOf s it.product_id) it.quantity with
      | true => rw [hlt] at h; simp at h
      | false =>
        rw [hlt] at h
        simp only [Bool.false_eq_true, if_false] at h
        cases hrec : validateItemsF .noFault s rest (i+1) with
        | error e => rw [hrec] at h; cases h
        | ok l =>
          rw [hrec] at h
          cases h
          obtain ⟨hk, hq, hp⟩ := ih (i+1) l hrec
          refine ⟨by simp [hk], by simp [hq], ?_⟩
          intro pi hpi
          rcases List.mem_cons.mp hpi with rfl | hpl
          · refine ⟨rfl, ⟨prod, hf, rfl⟩, hlt, ⟨it, by simp, rfl, rfl⟩⟩
          · obtain ⟨h1, h2, h3, it2, hit2, h4⟩ := hp pi hpl
            exact ⟨h1, h2, h3, it2, by simp [hit2], h4⟩

/-- A request containing a rejectable line makes validation fail, with a
payload naming a failing line's product (and, for an insufficiency, the
joined stock). -/
theorem validate_bad (s : DBState) :
    ∀ (items : List SaleItemReq) (i : Nat),
      (∃ it ∈ items, badLine s it) →
      ∃ e, validateItemsF .noFault s items i = .error e ∧
           ∃ it ∈ items, badLine s it ∧ errNames s e it := by
  intro items
  induction items with
  | nil =>
    intro i h
    obtain ⟨it, hit, _⟩ := h
    cases hit
  | cons it rest ih =>
    intro i h
    rw [validateItemsF]
    simp only [show (SaleFault.noFault == SaleFault.validateQuery i) = false from rfl,
      Bool.false_eq_true, if_false]
    by_cases hb : badLine s it
    · cases hf : findActiveProduct s it.product_id with
      | none =>
        exact ⟨.productNotFound it.product_id, rfl,
          it, by simp, hb, Or.inl ⟨hf, rfl⟩⟩
      | some prod =>
        have hlt : jsLt (stockOf s it.product_id) it.quantity = true := by
          rcases hb with hnone | hlt
          · rw [hf] at hnone; cases hnone
          · exact hlt
        rw [hlt]
        simp only [if_true]
        exact ⟨.insufficientStock prod.name (stockOf s it.product_id), rfl,
          it, by simp, hb, Or.inr ⟨prod, hf, rfl⟩⟩
    · have hrest : ∃ x ∈ rest, badLine s x := by
        obtain ⟨x, hx, hbx⟩ := h
        rcases List.mem_cons.mp hx with rfl | hxr
        · exact absurd hbx hb
        · exact ⟨x, hxr, hbx⟩
      obtain ⟨e, he, x, hx, hbx, hn⟩ := ih (i+1) hrest
      have hf : ∃ prod, findActiveProduct s it.product_id = some prod := by
        cases hfa : findActiveProduct s it.product_id with
        | none => exact absurd (Or.inl hfa) hb
        | some prod => exact ⟨prod, rfl⟩
      obtain ⟨prod, hprod⟩ := hf
      rw [hprod]
      have hlt : jsLt (stockOf s it.product_id) it.quantity = false := by
        cases hlt2 : jsLt (stockOf s it.product_id) it.quantity with
        | true => exact absurd (Or.inr hlt2) hb
        | false => rfl
      rw [hlt]
      simp only [Bool.false_eq_true, if_false, he]
      exact ⟨e, rfl, x, by simp [hx], hbx, hn⟩

/-- The two rejection payloads map to HTTP 400 responses. -/
theorem errNames_response {s : DBState} {e : SaleErr} {it : SaleItemReq}
    (h : errNames s e it) : errToResponse e = .badRequest e := by
  rcases h with ⟨_, rfl⟩ | ⟨p, _, rfl⟩ <;> rfl

/-- Inversion of a successful (201) sale creation: the validator and the
validation loop passed, and the final state is the initial one plus the
sale header, the line items, the inventory decrements and the 'saida'
movements. -/
theorem createSale_ok_inv {s s' : DBState} {uid : Nat} {r : SaleReq}
    {sid : Nat} {tot : ℚ} {n : Nat}
    (h : createSale s uid r = (.created sid tot n, s')) :
    saleValidatorOk r = true ∧
    ∃ p, validateItemsF .noFault s r.items 0 = .ok p ∧
      sid = s.nextSaleId ∧ tot = sumTotals p - r.discount + r.tax ∧ n = p.length ∧
      s' = { s with
        sales := s.sales ++ [newSaleRow s uid r (sumTotals p - r.discount + r.tax)],
        sale_items := s.sale_items ++ p.map (mkItemRow s.nextSaleId),
        inventory := decFold s.inventory p,
        movements := s.movements ++ p.map (saleOutMove uid s.nextSaleId),
        nextSaleId := s.nextSaleId + 1 } := by
  rw [createSale, createSaleF] at h
  cases hv : saleValidatorOk r with
  | false => rw [hv] at h; simp at h
  | true =>
    rw [hv] at h
    simp only [Bool.not_true, Bool.false_eq_true, if_false] at h
    refine ⟨rfl, ?_⟩
    cases hval : validateItemsF .noFault s r.items 0 with
    | error e =>
      rw [hval] at h
      cases e <;> simp [errToResponse] at h
    | ok p =>
      rw [hval] at h
      simp only [show (SaleFault.noFault == SaleFault.insertSale) = false from rfl,
        show (SaleFault.noFault == SaleFault.commitFail) = false from rfl,
        Bool.false_eq_true, if_false, writeItemsF_noFault_spec] at h
      obtain ⟨h1, h2⟩ := Prod.mk.injEq .. ▸ h
      cases h1
      cases h2
      exact ⟨p, rfl, rfl, rfl, rfl, rfl⟩

/-- `mkItemRow` preserves product id and quantity, so the restore loop adds
back per product exactly what the write loop subtracted. -/
theorem qtyInRows_mkItemRow (saleId : Nat) :
    ∀ (l : List SaleItemP) (pid : Nat),
      qtyInRows (l.map (mkItemRow saleId)) pid = qtyOut l pid := by
  intro l pid
  induction l with
  | nil => rfl
  | cons p t ih =>
    rw [List.map_cons, qtyInRows_cons, qtyOut_cons, ih]
    rfl

/-- Restoring a sale's own line items undoes its inventory decrements. -/
theorem inc_dec_cancel (saleId : Nat) (l : List SaleItemP) (inv : List InventoryRow) :
    incFoldI (decFold inv l) (l.map (mkItemRow saleId)) = inv := by
  rw [incFoldI_eq_map, decFold_eq_map, List.map_map]
  have hp : ∀ r ∈ inv,
      ((fun r : InventoryRow =>
          { r with quantity := r.quantity + qtyInRows (l.map (mkItemRow saleId)) r.product_id }) ∘
       (fun r : InventoryRow =>
          { r with quantity := r.quantity - qtyOut l r.product_id })) r = id r := by
    intro r _
    simp [Function.comp_apply, qtyInRows_mkItemRow, sub_add_cancel]
  rw [map_ext_mem _ id inv hp, List.map_id]

/-- Cancelling a freshly created sale: the status flips, the sale's own line
items are restored — returning `inventory` to its pre-sale value — and one
compensating 'entrada' movement per line item is appended. -/
theorem create_cancel_spec {s s' : DBState} {uid : Nat} {r : SaleReq}
    {sid : Nat} {tot : ℚ} {n : Nat}
    (hfreshSale : ∀ sa ∈ s.sales, sa.id ≠ s.nextSaleId)
    (hfreshItems : ∀ si ∈ s.sale_items, si.sale_id ≠ s.nextSaleId)
    (h : createSale s uid r = (.created sid tot n, s')) (uid2 : Nat) :
    updateSaleStatus s' uid2 sid "cancelada" =
      (.okMsg, { s' with
        inventory := s.inventory,
        movements := s'.movements ++
          (s'.sale_items.filter (fun si => si.sale_id == sid)).map (cancelInMove uid2 sid),
        sales := setSaleStatus s'.sales sid "cancelada" }) := by
  obtain ⟨hv, p, hval, hsid, htot, hn, hs'⟩ := createSale_ok_inv h
  subst hsid
  subst hs'
  have hfind : (s.sales ++ [newSaleRow s uid r (sumTotals p - r.discount + r.tax)]).find?
      (fun sa => sa.id == s.nextSaleId) =
      some (newSaleRow s uid r (sumTotals p - r.discount + r.tax)) := by
    rw [find?_append_of_none _ _ _ (fun sa hsa => by simp [hfreshSale sa hsa])]
    simp [newSaleRow]
  have hfilter : (s.sale_items ++ p.map (mkItemRow s.nextSaleId)).filter
      (fun si => si.sale_id == s.nextSaleId) = p.map (mkItemRow s.nextSaleId) := by
    rw [filter_append_of_none _ _ _ (fun si hsi => by simp [hfreshItems si hsi])]
    rw [List.filter_eq_self.mpr]
    intro a ha
    obtain ⟨pi, _, rfl⟩ := List.mem_map.mp ha
    simp [mkItemRow]
  have hne : p ≠ [] := by
    intro hpnil
    obtain ⟨hk, _, _⟩ := validate_ok_spec s r.items 0 p hval
    rw [hpnil] at hk
    have hitems : r.items = [] := List.map_eq_nil_iff.mp hk.symm
    have hie : r.items.isEmpty = false := by
      simp only [saleValidatorOk, Bool.and_eq_true, Bool.not_eq_true'] at hv
      exact hv.1.1
    rw [hitems] at hie
    simp at hie
  rw [updateSaleStatus]
  simp only [show validStatus "cancelada" = true from rfl, Bool.not_true,
    Bool.false_eq_true, if_false]
  rw [hfind]
  simp only [newSaleRow, show (("concluida" : String) == "concluida" &&
    (("cancelada" : String) == "cancelada")) = true from rfl, if_true]
  rw [hfilter]
  have hempty : (p.map (mkItemRow s.nextSaleId)).isEmpty = false := by
    rcases p with _ | ⟨a, t⟩
    · exact absurd rfl hne
    · rfl
  rw [hempty]
  simp only [Bool.false_eq_true, if_false]
  rw [restore_foldl_spec]
  have hinv : incFoldI (decFold s.inventory p) (p.map (mkItemRow s.nextSaleId)) =
      s.inventory := inc_dec_cancel _ _ _
  simp [hinv, hfilter]

/-- C2 (confirmed): for every successful sale creation, the persisted sale
header's total_amount equals the sum of the persisted line items'
total_price minus the sale's discount plus its tax; each line item's
unit_price is a snapshot of the referenced product's price in the pre-sale
state, and its total_price is quantity × unit_price. -/
theorem C2_sale_total_consistent (s s' : DBState) (uid : Nat) (r : SaleReq)
    (sid : Nat) (tot : ℚ) (n : Nat)
    (hfresh : ∀ si ∈ s.sale_items, si.sale_id ≠ s.nextSaleId)
    (h : createSale s uid r = (.created sid tot n, s')) :
    ∃ sale ∈ s'.sales, sale.id = sid ∧
      sale.total_amount =
        ((s'.sale_items.filter (fun si => si.sale_id == sid)).map (·.total_price)).sum
          - sale.discount + sale.tax ∧
      ∀ it ∈ s'.sale_items.filter (fun si => si.sale_id == sid),
        it.total_price = it.quantity * it.unit_price ∧
        ∃ prod, findActiveProduct s it.product_id = some prod ∧
                it.unit_price = prod.price := by
  obtain ⟨hv, p, hval, hsid, htot, hn, hs'⟩ := createSale_ok_inv h
  subst hsid
  subst hs'
  obtain ⟨_, _, hprops⟩ := validate_ok_spec s r.items 0 p hval
  have hfilter : (s.sale_items ++ p.map (mkItemRow s.nextSaleId)).filter
      (fun si => si.sale_id == s.nextSaleId) = p.map (mkItemRow s.nextSaleId) := by
    rw [filter_append_of_none _ _ _ (fun si hsi => by simp [hfresh si hsi])]
    rw [List.filter_eq_self.mpr]
    intro a ha
    obtain ⟨pi, _, rfl⟩ := List.mem_map.mp ha
    simp [mkItemRow]
  refine ⟨newSaleRow s uid r (sumTotals p - r.discount + r.tax), by simp, rfl, ?_, ?_⟩
  · show sumTotals p - r.discount + r.tax = _ - r.discount + r.tax
    have hsum : ((p.map (mkItemRow s.nextSaleId)).map (·.total_price)).sum = sumTotals p := by
      rw [List.map_map]
      rfl
    rw [show ({ s with
        sales := s.sales ++ [newSaleRow s uid r (sumTotals p - r.discount + r.tax)],
        sale_items := s.sale_items ++ p.map (mkItemRow s.nextSaleId),
        inventory := decFold s.inventory p,
        movements := s.movements ++ p.map (saleOutMove uid s.nextSaleId),
        nextSaleId := s.nextSaleId + 1 } : DBState).sale_items =
      s.sale_items ++ p.map (mkItemRow s.nextSaleId) from rfl, hfilter, hsum]
  · intro it hit
    rw [show ({ s with
        sales := s.sales ++ [newSaleRow s uid r (sumTotals p - r.discount + r.tax)],
        sale_items := s.sale_items ++ p.map (mkItemRow s.nextSaleId),
        inventory := decFold s.inventory p,
        movements := s.movements ++ p.map (saleOutMove uid s.nextSaleId),
        nextSaleId := s.nextSaleId + 1 } : DBState).sale_items =
      s.sale_items ++ p.map (mkItemRow s.nextSaleId) from rfl, hfilter] at hit
    obtain ⟨pi, hpi, rfl⟩ := List.mem_map.mp hit
    obtain ⟨h1, ⟨prod, hprod, h2⟩, _, _⟩ := hprops pi hpi
    exact ⟨h1, prod, hprod, h2⟩

/-- Witness for C2 at a concrete 30-unit sale of a 10-per-unit product. -/
theorem C2_sale_total_witness :
    ∃ sale ∈ (createSale exS 1 exR).2.sales, sale.id = 1 ∧
      sale.total_amount =
        (((createSale exS 1 exR).2.sale_items.filter
            (fun si => si.sale_id == 1)).map (·.total_price)).sum
          - sale.discount + sale.tax ∧
      ∀ it ∈ (createSale exS 1 exR).2.sale_items.filter (fun si => si.sale_id == 1),
        it.total_price = it.quantity * it.unit_price ∧
        ∃ prod, findActiveProduct exS it.product_id = some prod ∧
                it.unit_price = prod.price :=
  C2_sale_total_consistent exS (createSale exS 1 exR).2 1 exR 1 300 1
    (by decide) (by with_unfolding_all decide)

/-- C4 (confirmed): cancelling a freshly created (hence completed) sale
succeeds, restores the `inventory` table exactly to its pre-sale value —
so creation followed by cancellation is the identity on every product's
stock — and appends one compensating 'entrada' movement per line item
referencing the sale. -/
theorem C4_cancel_restores_inventory (s s' : DBState) (uid uid2 : Nat) (r : SaleReq)
    (sid : Nat) (tot : ℚ) (n : Nat)
    (hfreshSale : ∀ sa ∈ s.sales, sa.id ≠ s.nextSaleId)
    (hfreshItems : ∀ si ∈ s.sale_items, si.sale_id ≠ s.nextSaleId)
    (h : createSale s uid r = (.created sid tot n, s')) :
    (updateSaleStatus s' uid2 sid "cancelada").1 = .okMsg ∧
    (updateSaleStatus s' uid2 sid "cancelada").2.inventory = s.inventory ∧
    (updateSaleStatus s' uid2 sid "cancelada").2.movements =
      s'.movements ++
        (s'.sale_items.filter (fun si => si.sale_id == sid)).map (cancelInMove uid2 sid) := by
  rw [create_cancel_spec hfreshSale hfreshItems h uid2]
  exact ⟨rfl, rfl, rfl⟩

/-- Witness for C4 at the concrete 30-unit sale: stock goes 100 → 70 → 100. -/
theorem C4_cancel_restores_witness :
    (updateSaleStatus (createSale exS 1 exR).2 2 1 "cancelada").1 = .okMsg ∧
    (updateSaleStatus (createSale exS 1 exR).2 2 1 "cancelada").2.inventory = exS.inventory ∧
    (updateSaleStatus (createSale exS 1 exR).2 2 1 "cancelada").2.movements =
      (createSale exS 1 exR).2.movements ++
        ((createSale exS 1 exR).2.sale_items.filter
          (fun si => si.sale_id == 1)).map (cancelInMove 2 1) :=
  C4_cancel_restores_inventory exS (createSale exS 1 exR).2 1 2 exR 1 300 1
    (by decide) (by decide) (by with_unfolding_all decide)

/-- C9 (confirmed): a sale persisted by a successful creation carries status
'concluida' — the INSERT omits the status column and the schema default
applies — so it is never 'pendente' and is immediately cancellable with
inventory restoration. -/
theorem C9_created_sale_completed (s s' : DBState) (uid : Nat) (r : SaleReq)
    (sid : Nat) (tot : ℚ) (n : Nat)
    (hfreshSale : ∀ sa ∈ s.sales, sa.id ≠ s.nextSaleId)
    (hfreshItems : ∀ si ∈ s.sale_items, si.sale_id ≠ s.nextSaleId)
    (h : createSale s uid r = (.created sid tot n, s')) :
    (∃ sale ∈ s'.sales, sale.id = sid ∧ sale.status = "concluida" ∧
      sale.status ≠ "pendente") ∧
    (updateSaleStatus s' uid sid "cancelada").1 = .okMsg ∧
    (updateSaleStatus s' uid sid "cancelada").2.inventory = s.inventory := by
  refine ⟨?_, ?_, ?_⟩
  · obtain ⟨hv, p, hval, hsid, htot, hn, hs'⟩ := createSale_ok_inv h
    subst hsid
    subst hs'
    exact ⟨newSaleRow s uid r (sumTotals p - r.discount + r.tax), by simp,
      rfl, rfl, by simp [newSaleRow]⟩
  · rw [create_cancel_spec hfreshSale hfreshItems h uid]
  · rw [create_cancel_spec hfreshSale hfreshItems h uid]

/-- Witness for C9 at the concrete 30-unit sale. -/
theorem C9_created_sale_witness :
    (∃ sale ∈ (createSale exS 1 exR).2.sales, sale.id = 1 ∧
      sale.status = "concluida" ∧ sale.status ≠ "pendente") ∧
    (updateSaleStatus (createSale exS 1 exR).2 1 1 "cancelada").1 = .okMsg ∧
    (updateSaleStatus (createSale exS 1 exR).2 1 1 "cancelada").2.inventory =
      exS.inventory :=
  C9_created_sale_completed exS (createSale exS 1 exR).2 1 exR 1 300 1
    (by decide) (by decide) (by with_unfolding_all decide)

/-- C3 (confirmed): a validator-accepted sale request in which some line
references a product that is missing or inactive, or whose availability
check fails, is answered with a 400 naming a failing line's product — for
an insufficiency also its available stock — and the database is returned
unchanged. -/
theorem C3_invalid_line_rejected (s : DBState) (uid : Nat) (r : SaleReq)
    (hv : saleValidatorOk r = true)
    (hbad : ∃ it ∈ r.items, badLine s it) :
    ∃ e, createSale s uid r = (.badRequest e, s) ∧
      ∃ it ∈ r.items, badLine s it ∧ errNames s e it := by
  obtain ⟨e, he, it, hit, hb, hn⟩ := validate_bad s r.items 0 hbad
  refine ⟨e, ?_, it, hit, hb, hn⟩
  rw [createSale, createSaleF, hv]
  simp only [Bool.not_true, Bool.false_eq_true, if_false, he, errNames_response hn]

/-- Witness for C3: requesting 200 of the 100 in stock is rejected in place. -/
theorem C3_invalid_line_witness :
    ∃ e, createSale exS 1 exR3 = (.badRequest e, exS) ∧
      ∃ it ∈ exR3.items, badLine exS it ∧ errNames exS e it :=
  C3_invalid_line_rejected exS 1 exR3 (by with_unfolding_all decide)
    ⟨⟨1, 200⟩, by decide, by decide⟩

/-- C10 (confirmed): a request line for an active product that has no
inventory row always fails the availability check — the joined stock is
SQL NULL, which the JS comparison treats as 0, so any positive quantity is
insufficient — and the whole request is rejected with the state unchanged. -/
theorem C10_missing_inventory_rejected (s : DBState) (uid : Nat) (r : SaleReq)
    (it : SaleItemReq) (hv : saleValidatorOk r = true) (hmem : it ∈ r.items)
    (_hp : (findActiveProduct s it.product_id).isSome = true)
    (hnone : stockOf s it.product_id = none) (hq : 0 < it.quantity) :
    jsLt (stockOf s it.product_id) it.quantity = true ∧
    ∃ e, createSale s uid r = (.badRequest e, s) := by
  have hlt : jsLt (stockOf s it.product_id) it.quantity = true := by
    rw [hnone]
    simp [jsLt, hq]
  refine ⟨hlt, ?_⟩
  obtain ⟨e, he, x, hx, hb, hn⟩ :=
    validate_bad s r.items 0 ⟨it, hmem, Or.inr hlt⟩
  refine ⟨e, ?_⟩
  rw [createSale, createSaleF, hv]
  simp only [Bool.not_true, Bool.false_eq_true, if_false, he, errNames_response hn]

/-- Witness for C10: product 1 is active but has no inventory row, and a
30-unit request is rejected. -/
theorem C10_missing_inventory_witness :
    jsLt (stockOf exS10 1) (30 : ℚ) = true ∧
    ∃ e, createSale exS10 1 exR = (.badRequest e, exS10) :=
  C10_missing_inventory_rejected exS10 1 exR ⟨1, 30⟩ (by with_unfolding_all decide)
    (by decide) (by decide) (by decide) (by decide)

/-- C6 (confirmed): updating the status of an existing sale whose current
status is not 'concluida' takes the plain-update branch: the response is a
success acknowledgement, only the `sales` table changes, and the inventory
and movement tables are untouched. -/
theorem C6_noncompleted_update_frame (s : DBState) (uid saleId : Nat)
    (newStatus : String) (sale : SaleRow)
    (hfind : s.sales.find? (fun sa => sa.id == saleId) = some sale)
    (hst : sale.status ≠ "concluida") (hv : validStatus newStatus = true) :
    updateSaleStatus s uid saleId newStatus =
      (.okMsg, { s with sales := setSaleStatus s.sales saleId newStatus }) ∧
    (updateSaleStatus s uid saleId newStatus).2.inventory = s.inventory ∧
    (updateSaleStatus s uid saleId newStatus).2.movements = s.movements := by
  have hbranch : (sale.status == "concluida" && (newStatus == "cancelada")) = false := by
    have h1 : (sale.status == "concluida") = false := beq_eq_false_iff_ne.mpr hst
    rw [h1, Bool.false_and]
  have hupd : updateSaleStatus s uid saleId newStatus =
      (.okMsg, { s with sales := setSaleStatus s.sales saleId newStatus }) := by
    rw [updateSaleStatus, hv]
    simp only [Bool.not_true, Bool.false_eq_true, if_false]
    simp only [hfind, hbranch, Bool.false_eq_true, if_false]
  exact ⟨hupd, by rw [hupd], by rw [hupd]⟩

/-- Witness for C6: flipping a pending sale to completed leaves inventory
and movements alone. -/
theorem C6_noncompleted_update_witness :
    updateSaleStatus exS6 1 1 "concluida" =
      (.okMsg, { exS6 with sales := setSaleStatus exS6.sales 1 "concluida" }) ∧
    (updateSaleStatus exS6 1 1 "concluida").2.inventory = exS6.inventory ∧
    (updateSaleStatus exS6 1 1 "concluida").2.movements = exS6.movements :=
  C6_noncompleted_update_frame exS6 1 1 "concluida"
    { id := 1, customer_id := none, user_id := 1, total_amount := 50,
      discount := 0, tax := 0, payment_method := "dinheiro",
      status := "pendente", notes := none }
    (by decide) (by decide) (by decide)

/-- C5 (counterexample): the handler performs no transition validation.  On
a store whose only sale is already 'cancelada', requesting status
'concluida' is acknowledged with success and makes the sale completed
again — not rejected with a conflict — and a subsequent 'cancelada' request
is also acknowledged and runs the restore loop a second time, inflating the
product's stock from 100 to 105 even though this sale never decremented
it. -/
theorem C5_cancel_not_final_counterexample :
    (updateSaleStatus exS5 1 1 "concluida").1 = .okMsg ∧
    ((updateSaleStatus exS5 1 1 "concluida").2.sales.map (·.status)) = ["concluida"] ∧
    (updateSaleStatus (updateSaleStatus exS5 1 1 "concluida").2 1 1 "cancelada").1 =
      .okMsg ∧
    ((updateSaleStatus (updateSaleStatus exS5 1 1 "concluida").2 1 1
        "cancelada").2.inventory.map (·.quantity)) = [105] := by
  with_unfolding_all decide

/-- C5 (corrected): the only special-cased transition is
completed→cancelled; every other status update on an existing sale —
including cancelled→completed — is applied as a plain update and
acknowledged with success, with no conflict error and no inventory
effect, so a cancelled sale can be re-completed (and later re-cancelled,
repeating the restoration). -/
theorem C5_status_update_unrestricted (s : DBState) (uid saleId : Nat)
    (newStatus : String) (sale : SaleRow)
    (hv : validStatus newStatus = true)
    (hfind : s.sales.find? (fun sa => sa.id == saleId) = some sale)
    (hnc : ¬(sale.status = "concluida" ∧ newStatus = "cancelada")) :
    updateSaleStatus s uid saleId newStatus =
      (.okMsg, { s with sales := setSaleStatus s.sales saleId newStatus }) := by
  have hbranch : (sale.status == "concluida" && (newStatus == "cancelada")) = false := by
    rcases Decidable.em (sale.status = "concluida") with h1 | h1
    · have h2 : newStatus ≠ "cancelada" := fun h => hnc ⟨h1, h⟩
      rw [beq_eq_false_iff_ne.mpr h2, Bool.and_false]
    · rw [beq_eq_false_iff_ne.mpr h1, Bool.false_and]
  rw [updateSaleStatus, hv]
  simp only [Bool.not_true, Bool.false_eq_true, if_false]
  simp only [hfind, hbranch, Bool.false_eq_true, if_false]

/-- Witness for the amended C5: re-completing the cancelled sale of `exS5`
succeeds as a plain update. -/
theorem C5_status_update_witness :
    updateSaleStatus exS5 1 1 "concluida" =
      (.okMsg, { exS5 with sales := setSaleStatus exS5.sales 1 "concluida" }) :=
  C5_status_update_unrestricted exS5 1 1 "concluida"
    { id := 1, customer_id := none, user_id := 1, total_amount := 50,
      discount := 0, tax := 0, payment_method := "dinheiro",
      status := "cancelada", notes := none }
    (by decide) (by decide) (by decide)

/-- C7 (confirmed): a validator-accepted manual stock removal for a product
with an inventory row is rejected in place with the available quantity when
the request exceeds the current stock, and otherwise decrements that
product's quantity by exactly the requested amount while appending the one
'saida' movement in the same transaction. -/
theorem C7_remove_stock_guarded (s : DBState) (uid pid : Nat) (q : ℚ)
    (reason : String) (inv : InventoryRow)
    (hval : adjValidatorOk q reason = true)
    (hfind : s.inventory.find? (fun i => i.product_id == pid) = some inv) :
    (inv.quantity < q →
      removeStock s uid pid q reason = (.insufficient inv.quantity, s)) ∧
    (q ≤ inv.quantity →
      removeStock s uid pid q reason =
        (.okMsg, { s with
          inventory := s.inventory.map (fun row =>
            if row.product_id == pid then { row with quantity := row.quantity - q }
            else row),
          movements := s.movements ++ [adjMove pid "saida" q reason uid] })) := by
  rw [removeStock, hval]
  simp only [Bool.not_true, Bool.false_eq_true, if_false]
  simp only [hfind]
  constructor
  · intro hlt
    rw [if_pos hlt]
  · intro hle
    rw [if_neg (not_lt.mpr hle)]
    rfl

/-- Witness for C7: with 100 in stock, removing 200 is rejected and
removing 40 would decrement to 60. -/
theorem C7_remove_stock_witness :
    ((100 : ℚ) < 200 →
      removeStock exS 1 1 200 "perda" = (.insufficient 100, exS)) ∧
    ((200 : ℚ) ≤ 100 →
      removeStock exS 1 1 200 "perda" =
        (.okMsg, { exS with
          inventory := exS.inventory.map (fun row =>
            if row.product_id == 1 then { row with quantity := row.quantity - 200 }
            else row),
          movements := exS.movements ++ [adjMove 1 "saida" 200 "perda" 1] })) :=
  C7_remove_stock_guarded exS 1 1 200 "perda"
    { product_id := 1, quantity := 100, min_stock := 0, max_stock := none,
      location := none }
    (by with_unfolding_all decide) (by decide)

/-- A fault that is not a validation-query fault leaves the validation loop
unchanged. -/
theorem validateItemsF_no_query (f : SaleFault) (hf : ∀ j, f ≠ .validateQuery j)
    (s : DBState) :
    ∀ (items : List SaleItemReq) (i : Nat),
      validateItemsF f s items i = validateItemsF .noFault s items i := by
  intro items
  induction items with
  | nil => intro i; rfl
  | cons it rest ih =>
    intro i
    rw [validateItemsF, validateItemsF]
    simp only [beq_eq_false_iff_ne.mpr (hf i),
      show (SaleFault.noFault == SaleFault.validateQuery i) = false from rfl,
      Bool.false_eq_true, if_false, ih]

/-- A validation-query fault either never fires — the loop behaves as with
no fault — or aborts validation with the db error. -/
theorem validateItemsF_query_cases (j : Nat) (s : DBState) :
    ∀ (items : List SaleItemReq) (i : Nat),
      validateItemsF (.validateQuery j) s items i = validateItemsF .noFault s items i ∨
      validateItemsF (.validateQuery j) s items i = .error .dbError := by
  intro items
  induction items with
  | nil => intro i; left; rfl
  | cons it rest ih =>
    intro i
    by_cases hj : j = i
    · subst hj
      right
      rw [validateItemsF]
      simp
    · rw [validateItemsF, validateItemsF]
      have h1 : (SaleFault.validateQuery j == SaleFault.validateQuery i) = false := by
        simp [hj]
      simp only [h1, show (SaleFault.noFault == SaleFault.validateQuery i) = false from rfl,
        Bool.false_eq_true, if_false]
      cases hfa : findActiveProduct s it.product_id with
      | none => left; rfl
      | some prod =>
        cases hlt : jsLt (stockOf s it.product_id) it.quantity with
        | true => left; simp [hlt]
        | false =>
          simp only [Bool.false_eq_true, if_false]
          rcases ih (i+1) with heq | herr
          · left; rw [heq]
          · right; rw [herr]

/-- A fault that touches none of the three per-item write primitives leaves
the write loop unchanged. -/
theorem writeItemsF_no_write (f : SaleFault)
    (hf : ∀ j, f ≠ .insertItem j ∧ f ≠ .updateInventory j ∧ f ≠ .insertMovement j)
    (uid saleId : Nat) :
    ∀ (l : List SaleItemP) (i : Nat) (st : DBState),
      writeItemsF f uid saleId l i st = writeItemsF .noFault uid saleId l i st := by
  intro l
  induction l with
  | nil => intro i st; rfl
  | cons p rest ih =>
    intro i st
    rw [writeItemsF, writeItemsF]
    simp only [beq_eq_false_iff_ne.mpr (hf i).1,
      beq_eq_false_iff_ne.mpr (hf i).2.1,
      beq_eq_false_iff_ne.mpr (hf i).2.2,
      show (SaleFault.noFault == SaleFault.insertItem i) = false from rfl,
      show (SaleFault.noFault == SaleFault.updateInventory i) = false from rfl,
      show (SaleFault.noFault == SaleFault.insertMovement i) = false from rfl,
      Bool.false_eq_true, if_false, ih]

/-- An item-insert or inventory-update fault either never fires or makes the
write loop abort with a ROLLBACK error. -/
theorem writeItemsF_item_fault_cases (f : SaleFault)
    (hf : (∃ j, f = .insertItem j) ∨ (∃ j, f = .updateInventory j))
    (uid saleId : Nat) :
    ∀ (l : List SaleItemP) (i : Nat) (st : DBState),
      writeItemsF f uid saleId l i st = writeItemsF .noFault uid saleId l i st ∨
      ∃ m, writeItemsF f uid saleId l i st = .error m := by
  intro l
  induction l with
  | nil => intro i st; left; rfl
  | cons p rest ih =>
    intro i st
    rw [writeItemsF, writeItemsF]
    simp only [show (SaleFault.noFault == SaleFault.insertItem i) = false from rfl,
      show (SaleFault.noFault == SaleFault.updateInventory i) = false from rfl,
      show (SaleFault.noFault == SaleFault.insertMovement i) = false from rfl,
      Bool.false_eq_true, if_false]
    cases hI : (f == SaleFault.insertItem i) with
    | true => right; simp [hI]
    | false =>
      simp only [hI, Bool.false_eq_true, if_false]
      cases hU : (f == SaleFault.updateInventory i) with
      | true => right; simp [hU]
      | false =>
        simp only [hU, Bool.false_eq_true, if_false]
        have hM : (f == SaleFault.insertMovement i) = false := by
          rcases hf with ⟨j, rfl⟩ | ⟨j, rfl⟩ <;> rfl
        simp only [hM, Bool.false_eq_true, if_false]
        exact ih (i+1) _

/-- C1 (corrected): sale creation is atomic for every failure point except
the movement-log insert — a fault in product validation, the sale-header
insert, a line-item insert, an inventory decrement, or the COMMIT either
never fires (the run equals the fault-free one) or aborts with an error
response and the database exactly as before the request. -/
theorem C1_sale_atomic_except_movement (s : DBState) (uid : Nat) (r : SaleReq)
    (f : SaleFault) (hf : ¬ f.isMovement) :
    createSaleF f s uid r = createSale s uid r ∨
    ((createSaleF f s uid r).1.isSuccess = false ∧ (createSaleF f s uid r).2 = s) := by
  by_cases hv : saleValidatorOk r
  case neg =>
    left
    rw [createSale, createSaleF, createSaleF]
    simp [hv]
  case pos =>
    cases f with
    | noFault => left; rfl
    | insertMovement j => exact absurd trivial hf
    | validateQuery j =>
      rw [createSale, createSaleF, createSaleF]
      simp only [hv, Bool.not_true, Bool.false_eq_true, if_false]
      rcases validateItemsF_query_cases j s r.items 0 with heq | herr
      · rw [heq]
        cases hval : validateItemsF .noFault s r.items 0 with
        | error e => left; rfl
        | ok p =>
          left
          simp only [writeItemsF_no_write (.validateQuery j)
            (fun j2 => ⟨by simp, by simp, by simp⟩) uid s.nextSaleId]
          rfl
      · rw [herr]
        right
        exact ⟨rfl, rfl⟩
    | insertSale =>
      rw [createSale, createSaleF, createSaleF]
      simp only [hv, Bool.not_true, Bool.false_eq_true, if_false]
      rw [validateItemsF_no_query .insertSale (fun j => by simp) s r.items 0]
      cases hval : validateItemsF .noFault s r.items 0 with
      | error e => left; rfl
      | ok p => right; exact ⟨rfl, rfl⟩
    | commitFail =>
      rw [createSale, createSaleF, createSaleF]
      simp only [hv, Bool.not_true, Bool.false_eq_true, if_false]
      rw [validateItemsF_no_query .commitFail (fun j => by simp) s r.items 0]
      cases hval : validateItemsF .noFault s r.items 0 with
      | error e => left; rfl
      | ok p =>
        right
        simp only [writeItemsF_no_write .commitFail (fun j => ⟨by simp, by simp, by simp⟩)
          uid s.nextSaleId, writeItemsF_noFault_spec]
        exact ⟨rfl, rfl⟩
    | insertItem j =>
      rw [createSale, createSaleF, createSaleF]
      simp only [hv, Bool.not_true, Bool.false_eq_true, if_false]
      rw [validateItemsF_no_query (.insertItem j) (fun i => by simp) s r.items 0]
      cases hval : validateItemsF .noFault s r.items 0 with
      | error e => left; rfl
      | ok p =>
        have hcase := writeItemsF_item_fault_cases (.insertItem j) (Or.inl ⟨j, rfl⟩)
          uid s.nextSaleId p 0
          { s with
            sales := s.sales ++ [newSaleRow s uid r (sumTotals p - r.discount + r.tax)],
            nextSaleId := s.nextSaleId + 1 }
        rcases hcase with heq | ⟨m, herr⟩
        · left; simp only [heq]; rfl
        · right; simp only [herr]; exact ⟨rfl, rfl⟩
    | updateInventory j =>
      rw [createSale, createSaleF, createSaleF]
      simp only [hv, Bool.not_true, Bool.false_eq_true, if_false]
      rw [validateItemsF_no_query (.updateInventory j) (fun i => by simp) s r.items 0]
      cases hval : validateItemsF .noFault s r.items 0 with
      | error e => left; rfl
      | ok p =>
        have hcase := writeItemsF_item_fault_cases (.updateInventory j) (Or.inr ⟨j, rfl⟩)
          uid s.nextSaleId p 0
          { s with
            sales := s.sales ++ [newSaleRow s uid r (sumTotals p - r.discount + r.tax)],
            nextSaleId := s.nextSaleId + 1 }
        rcases hcase with heq | ⟨m, herr⟩
        · left; simp only [heq]; rfl
        · right; simp only [herr]; exact ⟨rfl, rfl⟩

/-- Witness for the amended C1 at a COMMIT fault on the concrete store. -/
theorem C1_sale_atomic_witness :
    createSaleF .commitFail exS 1 exR = createSale exS 1 exR ∨
    ((createSaleF .commitFail exS 1 exR).1.isSuccess = false ∧
     (createSaleF .commitFail exS 1 exR).2 = exS) :=
  C1_sale_atomic_except_movement exS 1 exR .commitFail (by decide)

/-- C1 (counterexample): when the movement-log insert fails, the handler
only logs the error — "Don't rollback for movement errors" — so the
transaction still commits: the response is the 201 success, the state
differs from the initial one (the sale is persisted and the stock is
decremented to 70) and the movement log is empty, i.e. partial state is
persisted and reported as success. -/
theorem C1_movement_fault_counterexample :
    (createSaleF (.insertMovement 0) exS 1 exR).1.isSuccess = true ∧
    (createSaleF (.insertMovement 0) exS 1 exR).2 ≠ exS ∧
    (createSaleF (.insertMovement 0) exS 1 exR).2.movements = [] ∧
    ((createSaleF (.insertMovement 0) exS 1 exR).2.inventory.map (·.quantity)) = [70] ∧
    (createSaleF (.insertMovement 0) exS 1 exR).2.sales ≠ [] := by
  with_unfolding_all decide

/-- Two members of a list with distinct keys and the same key are equal. -/
theorem mem_key_unique {α : Type} (key : α → Nat) :
    ∀ (l : List α), (l.map key).Nodup →
      ∀ x ∈ l, ∀ y ∈ l, key x = key y → x = y := by
  intro l
  induction l with
  | nil => intro _ x hx; cases hx
  | cons a t ih =>
    intro hnd x hx y hy hkey
    simp only [List.map_cons, List.nodup_cons] at hnd
    rcases List.mem_cons.mp hx with rfl | hxt <;>
      rcases List.mem_cons.mp hy with rfl | hyt
    · rfl
    · exact absurd (hkey ▸ List.mem_map_of_mem key hyt) hnd.1
    · exact absurd (hkey ▸ List.mem_map_of_mem key hxt) hnd.1
    · exact ih hnd.2 x hxt y hyt hkey

/-- `incInv` does not change the key column. -/
theorem incInv_keys (inv : List InventoryRow) (pid : Nat) (q : ℚ) :
    (incInv inv pid q).map (·.product_id) = inv.map (·.product_id) := by
  rw [incInv, List.map_map]
  apply map_ext_mem
  intro r _
  by_cases h : r.product_id = pid <;> simp [h]

/-- `decInv` does not change the key column. -/
theorem decInv_keys (inv : List InventoryRow) (pid : Nat) (q : ℚ) :
    (decInv inv pid q).map (·.product_id) = inv.map (·.product_id) := by
  rw [decInv, List.map_map]
  apply map_ext_mem
  intro r _
  by_cases h : r.product_id = pid <;> simp [h]

/-- The state after POST /sales: either an abort that returns the initial
state, or a successful run with its validated item list. -/
theorem createSale_state_cases (s : DBState) (uid : Nat) (r : SaleReq) :
    (createSale s uid r).2 = s ∨
    (saleValidatorOk r = true ∧ ∃ p, validateItemsF .noFault s r.items 0 = .ok p ∧
      (createSale s uid r).2 = { s with
        sales := s.sales ++ [newSaleRow s uid r (sumTotals p - r.discount + r.tax)],
        sale_items := s.sale_items ++ p.map (mkItemRow s.nextSaleId),
        inventory := decFold s.inventory p,
        movements := s.movements ++ p.map (saleOutMove uid s.nextSaleId),
        nextSaleId := s.nextSaleId + 1 }) := by
  rw [createSale, createSaleF]
  cases hv : saleValidatorOk r with
  | false => left; rfl
  | true =>
    simp only [Bool.not_true, Bool.false_eq_true, if_false]
    cases hval : validateItemsF .noFault s r.items 0 with
    | error e => left; rfl
    | ok p =>
      right
      refine ⟨by trivial, p, rfl, ?_⟩
      simp only [show (SaleFault.noFault == SaleFault.insertSale) = false from rfl,
        show (SaleFault.noFault == SaleFault.commitFail) = false from rfl,
        Bool.false_eq_true, if_false, writeItemsF_noFault_spec]

/-- A fault-free sale creation whose request references each product at most
once preserves the non-negativity invariant: every line was checked against
the pre-sale stock, and with distinct product ids each inventory row is
decremented at most once. -/
theorem createSale_preserves_InvOK (s : DBState) (uid : Nat) (r : SaleReq)
    (hok : InvOK s) (hdist : (r.items.map (·.product_id)).Nodup) :
    InvOK (createSale s uid r).2 := by
  rcases createSale_state_cases s uid r with hsame | ⟨hv, p, hval, hstate⟩
  · rw [hsame]; exact hok
  · rw [hstate]
    obtain ⟨hkeys, hqtys, hprops⟩ := validate_ok_spec s r.items 0 p hval
    have hpnd : (p.map (·.product_id)).Nodup := by rw [hkeys]; exact hdist
    refine ⟨?_, ?_, ?_⟩
    · intro row hrow
      simp only [decFold_eq_map] at hrow
      obtain ⟨row0, hrow0, rfl⟩ := List.mem_map.mp hrow
      show 0 ≤ row0.quantity - qtyOut p row0.product_id
      by_cases hex : ∃ pi ∈ p, pi.product_id = row0.product_id
      · obtain ⟨pi, hpi, hpid⟩ := hex
        have hfe : p.filter (fun a => a.product_id == pi.product_id) = [pi] :=
          filter_key_unique (fun x => x.product_id) p hpnd pi hpi
        rw [hpid] at hfe
        have hq : qtyOut p row0.product_id = pi.quantity := by
          rw [qtyOut, hfe]
          simp
        rw [hq]
        obtain ⟨_, _, hjs, _⟩ := hprops pi hpi
        rw [hpid] at hjs
        have hfind : s.inventory.find? (fun a => a.product_id == row0.product_id) =
            some row0 :=
          find?_key_unique (fun x => x.product_id) s.inventory hok.2.2 row0 hrow0
        rw [stockOf, hfind] at hjs
        simp [jsLt] at hjs
        exact sub_nonneg.mpr hjs
      · push_neg at hex
        have hfe : p.filter (fun x => x.product_id == row0.product_id) = [] := by
          rw [List.filter_eq_nil_iff]
          intro a ha
          simp [hex a ha]
        rw [qtyOut, hfe]
        simpa using hok.1 row0 hrow0
    · intro si hsi
      rcases List.mem_append.mp hsi with hold | hnew
      · exact hok.2.1 si hold
      · obtain ⟨pi, hpi, rfl⟩ := List.mem_map.mp hnew
        obtain ⟨_, _, _, it, hit, _, hqeq⟩ := hprops pi hpi
        simp only [saleValidatorOk, Bool.and_eq_true, List.all_eq_true] at hv
        have hitq := hv.1.2 it hit
        simp only [Bool.and_eq_true, decide_eq_true_eq] at hitq
        show (0 : ℚ) ≤ pi.quantity
        rw [hqeq]
        exact le_trans (by norm_num) hitq.2
    · rw [decFold_keys]
      exact hok.2.2

/-- Sums of quantities of non-negative rows are non-negative. -/
theorem qtyInRows_nonneg (rows : List SaleItemRow) (pid : Nat)
    (h : ∀ it ∈ rows, 0 ≤ it.quantity) : 0 ≤ qtyInRows rows pid := by
  rw [qtyInRows]
  apply List.sum_nonneg
  intro x hx
  obtain ⟨it, hit, rfl⟩ := List.mem_map.mp hx
  exact h it (List.mem_of_mem_filter hit)

/-- A status update preserves the non-negativity invariant: the restore
branch only adds the (non-negative) line-item quantities back. -/
theorem updateSaleStatus_preserves_InvOK (s : DBState) (uid saleId : Nat)
    (st : String) (hok : InvOK s) : InvOK (updateSaleStatus s uid saleId st).2 := by
  rw [updateSaleStatus]
  cases hvs : validStatus st with
  | false => exact hok
  | true =>
    cases hfind : s.sales.find? (fun sa => sa.id == saleId) with
    | none => exact hok
    | some sale =>
      cases hb : (sale.status == "concluida" && (st == "cancelada")) with
      | false =>
        simp only [hb, Bool.false_eq_true, if_false]
        exact ⟨hok.1, hok.2.1, hok.2.2⟩
      | true =>
        simp only [hb, if_true]
        cases hempty : (s.sale_items.filter (fun si => si.sale_id == saleId)).isEmpty with
        | true =>
          simp only [hempty, if_true]
          exact hok
        | false =>
          simp only [hempty, Bool.false_eq_true, if_false]
          rw [restore_foldl_spec]
          refine ⟨?_, hok.2.1, ?_⟩
          · intro row hrow
            simp only [incFoldI_eq_map] at hrow
            obtain ⟨row0, h0, rfl⟩ := List.mem_map.mp hrow
            show (0 : ℚ) ≤ row0.quantity + _
            refine add_nonneg (hok.1 row0 h0) (qtyInRows_nonneg _ _ ?_)
            intro it hit
            exact hok.2.1 it (List.mem_of_mem_filter hit)
          · show (List.map (fun x => x.product_id)
                (incFoldI s.inventory
                  (s.sale_items.filter (fun si => si.sale_id == saleId)))).Nodup
            rw [incFoldI_keys]
            exact hok.2.2

/-- Appending a row with a key that no existing row carries keeps the key
column duplicate-free. -/
theorem nodup_keys_append (inv : List InventoryRow) (row : InventoryRow) (pid : Nat)
    (hnd : (inv.map (·.product_id)).Nodup)
    (hrow : row.product_id = pid)
    (hnone : inv.find? (fun i => i.product_id == pid) = none) :
    ((inv ++ [row]).map (·.product_id)).Nodup := by
  rw [List.map_append, List.nodup_append]
  refine ⟨hnd, by simp, ?_⟩
  intro x hx hx2
  simp only [List.map_cons, List.map_nil, List.mem_singleton] at hx2
  obtain ⟨i0, hi0, hkey⟩ := List.mem_map.mp hx
  have hne := List.find?_eq_none.mp hnone i0 hi0
  rw [hx2, hrow] at hkey
  simp [hkey] at hne

/-- A pointwise update that keeps keys keeps the key column
duplicate-free. -/
theorem nodup_keys_map (inv : List InventoryRow) (f : InventoryRow → InventoryRow)
    (hf : ∀ a, (f a).product_id = a.product_id)
    (hnd : (inv.map (·.product_id)).Nodup) :
    ((inv.map f).map (·.product_id)).Nodup := by
  rw [List.map_map]
  have h2 : List.map ((fun x => x.product_id) ∘ f) inv =
      List.map (fun x => x.product_id) inv := map_ext_mem _ _ _ (fun a _ => hf a)
  rw [h2]
  exact hnd

/-- A pointwise update that keeps quantities non-negative keeps all rows
non-negative. -/
theorem nonneg_rows_map (inv : List InventoryRow) (f : InventoryRow → InventoryRow)
    (hf : ∀ a ∈ inv, 0 ≤ a.quantity → 0 ≤ (f a).quantity)
    (h : ∀ a ∈ inv, 0 ≤ a.quantity) :
    ∀ row ∈ inv.map f, 0 ≤ row.quantity := by
  intro row hrow
  obtain ⟨a, ha, rfl⟩ := List.mem_map.mp hrow
  exact hf a ha (h a ha)

/-- Manual stock addition preserves the non-negativity invariant. -/
theorem addStock_preserves_InvOK (s : DBState) (uid pid : Nat) (q : ℚ)
    (reason : String) (hok : InvOK s) : InvOK (addStock s uid pid q reason).2 := by
  rw [addStock]
  cases hval : adjValidatorOk q reason with
  | false => exact hok
  | true =>
    cases hany : s.inventory.any (fun i => i.product_id == pid) with
    | false => exact hok
    | true =>
      have hq0 : (0 : ℚ) ≤ q := by
        simp only [adjValidatorOk, Bool.and_eq_true, decide_eq_true_eq] at hval
        exact le_trans (by norm_num) hval.1
      refine ⟨nonneg_rows_map s.inventory _ ?_ hok.1, hok.2.1,
        nodup_keys_map s.inventory _ ?_ hok.2.2⟩
      · intro a _ h0
        by_cases h : a.product_id = pid
        · simp only [h, beq_self_eq_true, if_true]
          exact add_nonneg h0 hq0
        · simp only [beq_eq_false_iff_ne.mpr h, Bool.false_eq_true, if_false]
          exact h0
      · intro a
        by_cases h : a.product_id = pid <;> simp [h]

/-- Manual stock removal preserves the non-negativity invariant: the checked
row is, by key uniqueness, the only row the decrement touches. -/
theorem removeStock_preserves_InvOK (s : DBState) (uid pid : Nat) (q : ℚ)
    (reason : String) (hok : InvOK s) : InvOK (removeStock s uid pid q reason).2 := by
  rw [removeStock]
  cases hval : adjValidatorOk q reason with
  | false => exact hok
  | true =>
    cases hfind : s.inventory.find? (fun i => i.product_id == pid) with
    | none => exact hok
    | some inv0 =>
      show InvOK
        (if inv0.quantity < q then
          ((AdjResponse.insufficient inv0.quantity, s) : AdjResponse × DBState)
        else
          (AdjResponse.okMsg,
            { s with
                inventory := decInv s.inventory pid q,
                movements := s.movements ++ [adjMove pid "saida" q reason uid] })).2
      by_cases hlt : inv0.quantity < q
      · rw [if_pos hlt]
        exact hok
      · rw [if_neg hlt]
        have hinv0mem : inv0 ∈ s.inventory := List.mem_of_find?_eq_some hfind
        have hinv0key : inv0.product_id = pid := by
          have := List.find?_some hfind
          simpa using this
        refine ⟨nonneg_rows_map s.inventory _ ?_ hok.1, hok.2.1,
          nodup_keys_map s.inventory _ ?_ hok.2.2⟩
        · intro a ha h0
          by_cases h : a.product_id = pid
          · have haeq : a = inv0 :=
              mem_key_unique (fun x => x.product_id) s.inventory hok.2.2 a ha
                inv0 hinv0mem (by simp only [h, hinv0key])
            simp only [h, beq_self_eq_true, if_true]
            rw [haeq]
            exact sub_nonneg.mpr (not_lt.mp hlt)
          · simp only [beq_eq_false_iff_ne.mpr h, Bool.false_eq_true, if_false]
            exact h0
        · intro a
          by_cases h : a.product_id = pid <;> simp [h]

/-- The direct PUT update preserves the non-negativity invariant: provided
quantities pass the ≥ 0 validator and omitted ones keep the stored value. -/
theorem updateInventoryPut_preserves_InvOK (s : DBState) (uid pid : Nat)
    (r : InvPutReq) (hok : InvOK s) : InvOK (updateInventoryPut s uid pid r).2 := by
  rw [updateInventoryPut]
  cases hval : invPutValidatorOk r with
  | false => exact hok
  | true =>
    cases hprod : (s.products.find? (fun p => p.id == pid && p.active)).isNone with
    | true => exact hok
    | false =>
      have hq0 : ∀ x, r.quantity = some x → (0 : ℚ) ≤ x := by
        intro x hx
        simp only [invPutValidatorOk, hx, Bool.and_eq_true, decide_eq_true_eq] at hval
        exact hval.1.1
      cases hfind : s.inventory.find? (fun i => i.product_id == pid) with
      | none =>
        refine ⟨?_, hok.2.1, nodup_keys_append s.inventory _ pid hok.2.2 rfl hfind⟩
        intro row hrow
        rcases List.mem_append.mp hrow with hold | hnewrow
        · exact hok.1 row hold
        · have hroweq := List.mem_singleton.mp hnewrow
          rw [hroweq]
          show (0 : ℚ) ≤ jsOrQ r.quantity 0
          cases hx : r.quantity with
          | none => simp [jsOrQ]
          | some x =>
            simp only [jsOrQ]
            by_cases hz : x = (0 : ℚ)
            · simp [hz]
            · simp only [beq_eq_false_iff_ne.mpr hz, Bool.false_eq_true, if_false]
              exact hq0 x hx
      | some cur =>
        have hcurmem : cur ∈ s.inventory := List.mem_of_find?_eq_some hfind
        refine ⟨nonneg_rows_map s.inventory _ ?_ hok.1, hok.2.1,
          nodup_keys_map s.inventory _ ?_ hok.2.2⟩
        · intro a ha h0
          by_cases h : a.product_id = pid
          · simp only [h, beq_self_eq_true, if_true]
            show (0 : ℚ) ≤ r.quantity.getD cur.quantity
            cases hx : r.quantity with
            | none => exact hok.1 cur hcurmem
            | some x => exact hq0 x hx
          · simp only [beq_eq_false_iff_ne.mpr h, Bool.false_eq_true, if_false]
            exact h0
        · intro a
          by_cases h : a.product_id = pid <;> simp [h]

/-- One request preserves the invariant, provided a sale request references
each product at most once. -/
theorem applyOp_preserves_InvOK (s : DBState) (op : Op)
    (hok : InvOK s) (hd : saleDistinct op) : InvOK (applyOp s op) := by
  cases op with
  | sale uid r => exact createSale_preserves_InvOK s uid r hok hd
  | status uid saleId st => exact updateSaleStatus_preserves_InvOK s uid saleId st hok
  | add uid pid q reason => exact addStock_preserves_InvOK s uid pid q reason hok
  | remove uid pid q reason => exact removeStock_preserves_InvOK s uid pid q reason hok
  | put uid pid r => exact updateInventoryPut_preserves_InvOK s uid pid r hok

/-- C8 (corrected): starting from a well-formed state — non-negative
inventory and line-item quantities, one inventory row per product — no
sequence of sale creations, status updates, manual adds, manual removes and
direct inventory updates produces a negative quantity, PROVIDED every sale
request references each product at most once; the per-line stock check is
made against the pre-sale stock, so a request with duplicate lines can
overdraw (see the counterexample). -/
theorem C8_nonneg_preserved_distinct (s : DBState) (ops : List Op)
    (hok : InvOK s) (hd : ∀ op ∈ ops, saleDistinct op) :
    InvOK (ops.foldl applyOp s) := by
  induction ops generalizing s with
  | nil => exact hok
  | cons op rest ih =>
    rw [List.foldl_cons]
    exact ih (applyOp s op)
      (applyOp_preserves_InvOK s op hok (hd op (by simp)))
      (fun o ho => hd o (by simp [ho]))

/-- Witness for the amended C8: a sale of 30 then a manual removal of 40 on
the 100-unit store keeps the invariant. -/
theorem C8_nonneg_preserved_witness :
    InvOK ([Op.sale 1 exR, Op.remove 1 1 40 "perda"].foldl applyOp exS) :=
  C8_nonneg_preserved_distinct exS [Op.sale 1 exR, Op.remove 1 1 40 "perda"]
    (by decide) (by decide)

/-- C8 (counterexample): the per-line availability check reads the pre-sale
stock, so a request with two lines for the same product passes validation
twice against the same 1 unit and the write loop decrements twice: from the
well-formed one-unit store, the sale is accepted and the inventory quantity
becomes −1. -/
theorem C8_duplicate_line_counterexample :
    InvOK exS8 ∧
    (createSale exS8 1 exR8).1.isSuccess = true ∧
    ((createSale exS8 1 exR8).2.inventory.map (·.quantity)) = [-1] ∧
    ¬ InvOK (applyOp exS8 (.sale 1 exR8)) := by
  with_unfolding_all decide

end LumberPOS
